import Mathlib

/-!
Verification development for the Aurora Gold chat/price services.

This file gives a shallow embedding, in Lean 4, of the two core modules of
the repository:

* `server/services/goldPrice.js` — the gold price estimator
  (`getCurrentPrice`, `fetchFromAPI`, `fetchFromGemini`,
  `parseGoldPriceFromText`, `isValidGoldPrice`, `generateRealisticPrice`,
  `generatePriceHistory`), and
* `server/services/chatbot.js` — the chat orchestrator
  (`processMessage`, `analyzeIntent`, `parseGeminiResponse`,
  `getFallbackResponse`, `getErrorResponse`, the response cache
  `getCachedResponse`/`setCachedResponse`, and the throttle queue
  `processQueue`).

Modelling conventions:

* JavaScript strings are modelled as Lean `String`s; all character level
  work (trim, toLowerCase, includes, the regular expressions of the
  parsing strategies) is implemented over `List Char` so that all
  definitions are executable and kernel-reducible.
* `Date.now()` timestamps are `Int` milliseconds, passed explicitly.
* `Math.random()` draws and `Math.sin` values are oracle parameters of
  type `ℚ` (floating point is modelled by rationals; `Math.sin` is a
  transcendental so its value is passed in as a parameter, bounded in the
  theorems that need bounds).
* `Math.round x` is `⌊x + 1/2⌋` and `Math.floor` is `⌊·⌋`, matching the
  JavaScript semantics on the rationals.
* Fallible operations (`axios` calls, `JSON.parse`, a throwing
  `getCurrentPrice`) are modelled with `Except Unit`; external oracles
  (the network reply text, `JSON.parse`) are explicit parameters.
* JavaScript truthiness tests on strings/numbers/nullable values are
  translated explicitly (`≠ ""`, `≠ 0`, `Option` matches) at each site.
-/

/-! ## Character-level helpers (JS string primitives) -/

/-- JS `\d` digit test. -/
def isDigitCh (c : Char) : Bool := '0' ≤ c && c ≤ '9'

/-- JS `\w` word-character test: `[A-Za-z0-9_]`. -/
def isWordCh (c : Char) : Bool :=
  ('A' ≤ c && c ≤ 'Z') || ('a' ≤ c && c ≤ 'z') || isDigitCh c || c = '_'

/-- JS `\s` whitespace test (ASCII fragment of the Unicode class). -/
def isWsCh (c : Char) : Bool := c.isWhitespace

/-- ASCII lower-casing, the fragment of JS `toLowerCase` exercised here. -/
def lowerCh (c : Char) : Char :=
  if 'A' ≤ c && c ≤ 'Z' then Char.ofNat (c.toNat + 32) else c

/-- JS `String.prototype.trim` on a character list. -/
def trimChars (cs : List Char) : List Char :=
  ((cs.dropWhile isWsCh).reverse.dropWhile isWsCh).reverse

/-- JS `String.prototype.trim`. -/
def jsTrim (s : String) : String := String.mk (trimChars s.data)

/-- JS `String.prototype.toLowerCase` (ASCII fragment). -/
def jsToLower (s : String) : String := String.mk (s.data.map lowerCh)

/-- JS `String.prototype.includes pat` on character lists. -/
def containsSeq (pat : List Char) : List Char → Bool
  | [] => List.isPrefixOf pat []
  | c :: rest => List.isPrefixOf pat (c :: rest) || containsSeq pat rest

/-- Case-insensitive prefix test (for `/.../i` regex literals). -/
def ciStartsWith (pat : List Char) (cs : List Char) : Bool :=
  List.isPrefixOf pat (cs.map lowerCh)

/-- JS `String.prototype.replace` with a plain-string pattern replaces the
first occurrence only; this is that operation on character lists. -/
def replaceFirstChars (pat repl : List Char) : List Char → List Char
  | [] => if List.isPrefixOf pat ([] : List Char) then repl else []
  | c :: rest =>
    if List.isPrefixOf pat (c :: rest) then repl ++ (c :: rest).drop pat.length
    else c :: replaceFirstChars pat repl rest

/-- JS `String.prototype.replace` (first occurrence, plain-string pattern). -/
def jsReplaceFirst (s pat repl : String) : String :=
  String.mk (replaceFirstChars pat.data repl.data s.data)

/-- The value of a digit character. -/
def digitVal (c : Char) : Nat := c.toNat - '0'.toNat

/-- JS `parseInt` on a list of digit characters, as an `Int`. -/
def digitsToInt (cs : List Char) : Int :=
  (cs.foldl (fun n c => n * 10 + digitVal c) 0 : Nat)

/-- JS `x || d` for numbers: `0` is falsy. -/
def jsOrInt (x d : Int) : Int := if x = 0 then d else x

/-- JS `x || d` for an optional string: `undefined` and `""` are falsy. -/
def jsOrStr (x : Option String) (d : String) : String :=
  match x with
  | some s => if s = "" then d else s
  | none => d

/-- JS `Math.round` on a rational: `⌊x + 1/2⌋` (half-up, matching JS). -/
def jsRound (x : ℚ) : Int := ⌊x + (1 : ℚ)/2⌋

/-- JS `Math.floor` on a rational. -/
def jsFloor (x : ℚ) : Int := ⌊x⌋

/-! ## Gold price service: validation and text parsing
(`server/services/goldPrice.js`, `isValidGoldPrice` /
`parseGoldPriceFromText`) -/

/-- Gate from the source: `price >= 5500 && price <= 8000`. -/
def isValidGoldPrice (price : Int) : Bool := 5500 ≤ price && price ≤ 8000

/-- Strategy 1 regex `\b(\d{4,5})\b`: leftmost maximal digit run of length
exactly 4 or 5 with non-word (or edge) characters on both sides.  The
`prev` argument carries the character preceding the current position. -/
def strat1Go (prev : Option Char) : List Char → Option Int
  | [] => none
  | c :: rest =>
    if isDigitCh c && !(prev.elim false isWordCh) then
      let run := c :: rest.takeWhile isDigitCh
      let after := rest.dropWhile isDigitCh
      if (run.length = 4 || run.length = 5) && !(after.head?.elim false isWordCh) then
        some (digitsToInt run)
      else strat1Go (some c) rest
    else strat1Go (some c) rest

/-- Strategy 1: first match of `\b(\d{4,5})\b` in the text. -/
def strat1Bounded (cs : List Char) : Option Int := strat1Go none cs

/-- Shared tail for the currency regexes: optional whitespace then a
greedy 4-or-5-digit capture (`\s*(\d{4,5})`). -/
def wsDigits45 (cs : List Char) : Option Int :=
  let r := cs.dropWhile isWsCh
  let run := r.takeWhile isDigitCh
  if run.length ≥ 4 then some (digitsToInt (run.take 5)) else none

/-- Currency pattern `/₹\s*(\d{4,5})/`: first position whose full pattern
matches (the regex engine advances one character on failure). -/
def matchRupeeSym : List Char → Option Int
  | [] => none
  | c :: rest =>
    if c = '₹' then
      match wsDigits45 rest with
      | some p => some p
      | none => matchRupeeSym rest
    else matchRupeeSym rest

/-- Currency pattern `/Rs\.?\s*(\d{4,5})/i`. -/
def matchRsWord : List Char → Option Int
  | [] => none
  | c :: rest =>
    if ciStartsWith "rs".data (c :: rest) then
      let r := (c :: rest).drop 2
      let r' := if r.head? = some '.' then r.drop 1 else r
      match wsDigits45 r' with
      | some p => some p
      | none => matchRsWord rest
    else matchRsWord rest

/-- Currency pattern `/INR\s*(\d{4,5})/i`. -/
def matchInrBefore : List Char → Option Int
  | [] => none
  | c :: rest =>
    if ciStartsWith "inr".data (c :: rest) then
      match wsDigits45 ((c :: rest).drop 3) with
      | some p => some p
      | none => matchInrBefore rest
    else matchInrBefore rest

/-- Currency pattern `/rupees?\s*(\d{4,5})/i`. -/
def matchRupeesBefore : List Char → Option Int
  | [] => none
  | c :: rest =>
    if ciStartsWith "rupee".data (c :: rest) then
      let r := (c :: rest).drop 5
      let r' := if r.head?.map lowerCh = some 's' then r.drop 1 else r
      match wsDigits45 r' with
      | some p => some p
      | none => matchRupeesBefore rest
    else matchRupeesBefore rest

/-- Tail check for the digits-first currency patterns: whitespace then a
case-insensitive word (`\s*rupee` / `\s*INR`; the trailing `s?` of
`rupees?` cannot affect match success). -/
def wsThenWord (word : List Char) (cs : List Char) : Bool :=
  ciStartsWith word (cs.dropWhile isWsCh)

/-- Currency patterns `/(\d{4,5})\s*rupees?/i` and `/(\d{4,5})\s*INR/i`:
greedy 4-or-5-digit capture followed by the word; on failure the engine
advances one character (so a match may start inside a longer digit run). -/
def matchNumThenWord (word : List Char) : List Char → Option Int
  | [] => none
  | c :: rest =>
    let run := (c :: rest).takeWhile isDigitCh
    if run.length ≥ 5 then
      if wsThenWord word ((c :: rest).drop 5) then some (digitsToInt (run.take 5))
      else matchNumThenWord word rest
    else if run.length = 4 then
      if wsThenWord word ((c :: rest).drop 4) then some (digitsToInt (run.take 4))
      else matchNumThenWord word rest
    else matchNumThenWord word rest

/-- The six currency-format candidates of Strategy 2, in source order. -/
def currencyCandidates (cs : List Char) : List Int :=
  [matchRupeeSym cs, matchRsWord cs, matchInrBefore cs,
   matchRupeesBefore cs, matchNumThenWord "rupee".data cs,
   matchNumThenWord "inr".data cs].filterMap id

/-- Strategy 3 regex `\b(\d{1,2},\d{3})\b`: 1–2 digits, a comma, exactly 3
digits, word boundaries on both sides; the comma is stripped before
`parseInt`. -/
def strat3CommaGo (prev : Option Char) : List Char → Option Int
  | [] => none
  | c :: rest =>
    if isDigitCh c && !(prev.elim false isWordCh) then
      let a := c :: rest.takeWhile isDigitCh
      let afterA := rest.dropWhile isDigitCh
      if (a.length = 1 || a.length = 2) && afterA.head? = some ',' then
        let b := (afterA.drop 1).takeWhile isDigitCh
        let afterB := (afterA.drop 1).dropWhile isDigitCh
        if b.length = 3 && !(afterB.head?.elim false isWordCh) then
          some (digitsToInt (a ++ b))
        else strat3CommaGo (some c) rest
      else strat3CommaGo (some c) rest
    else strat3CommaGo (some c) rest

/-- Strategy 3: first match of `\b(\d{1,2},\d{3})\b`. -/
def strat3Comma (cs : List Char) : Option Int := strat3CommaGo none cs

/-- Maximal digit runs of the text, in order (auxiliary with a reversed
accumulator for the current run). -/
def digitRunsAux : List Char → List Char → List (List Char)
  | [], acc => if acc.isEmpty then [] else [acc.reverse]
  | c :: rest, acc =>
    if isDigitCh c then digitRunsAux rest (c :: acc)
    else if acc.isEmpty then digitRunsAux rest [] else acc.reverse :: digitRunsAux rest []

/-- Maximal digit runs of the text, in order. -/
def digitRuns (cs : List Char) : List (List Char) := digitRunsAux cs []

/-- How `/\d{4,5}/g` chops one maximal digit run: greedy 5-character
matches from the left, a final 4-character match if exactly 4 remain
(structural fuel recursion; the fuel `cs.length` always suffices since
each step consumes 5 characters). -/
def chopRunFuel : Nat → List Char → List (List Char)
  | 0, _ => []
  | fuel + 1, cs =>
    if cs.length ≥ 5 then cs.take 5 :: chopRunFuel fuel (cs.drop 5)
    else if cs.length = 4 then [cs] else []

/-- How `/\d{4,5}/g` chops one maximal digit run. -/
def chopRun (cs : List Char) : List (List Char) := chopRunFuel cs.length cs

/-- Strategy 4: all matches of `/\d{4,5}/g`, in order. -/
def strat4Matches (cs : List Char) : List Int :=
  ((digitRuns cs).flatMap chopRun).map digitsToInt

/-- Strategy 4 stage of `parseGoldPriceFromText`: the `for` loop over all
`/\d{4,5}/g` matches returns the first valid one, else `null`. -/
def parseStage4 (cs : List Char) : Option Int :=
  (strat4Matches cs).find? isValidGoldPrice

/-- Strategy 3 stage: a comma-format match is gated by
`isValidGoldPrice`; an invalid or absent match falls through to
Strategy 4. -/
def parseStage3 (cs : List Char) : Option Int :=
  match strat3Comma cs with
  | some p => if isValidGoldPrice p then some p else parseStage4 cs
  | none => parseStage4 cs

/-- Strategy 2 stage: the `for` loop over the six currency-format
candidates returns the first valid one; otherwise fall through to
Strategy 3. -/
def parseStage2 (cs : List Char) : Option Int :=
  match (currencyCandidates cs).find? isValidGoldPrice with
  | some p => some p
  | none => parseStage3 cs

/-- The full multi-strategy parser `parseGoldPriceFromText` from the
source: Strategy 1's match is gated by `isValidGoldPrice`; an invalid or
absent match falls through to the later strategies. -/
def parseGoldPriceFromText (text : String) : Option Int :=
  match strat1Bounded text.data with
  | some p => if isValidGoldPrice p then some p else parseStage2 text.data
  | none => parseStage2 text.data

/-! ## Gold price service: synthesis, model fetch, caching
(`server/services/goldPrice.js`) -/

/-- Constructor constant `basePrice = 6800`. -/
def basePrice : Int := 6800

/-- Constructor constant: 3-minute cache window in milliseconds. -/
def priceCacheDuration : Int := 3 * 60 * 1000

/-- Constructor constant: 10-minute minimum interval between model calls. -/
def aiFetchInterval : Int := 10 * 60 * 1000

/-- `generateRealisticPrice` from the source:
`Math.max(6200, Math.min(7200, Math.round(basePrice + timeVariation + randomVariation)))`
where `timeVariation = Math.sin((hourOfDay/24)·2π)·50` and
`randomVariation = (Math.random() - 0.5)·100`.  `sinHour` stands for the
`Math.sin` value and `rand` for the `Math.random()` draw. -/
def generateRealisticPrice (sinHour rand : ℚ) : Int :=
  let timeVariation : ℚ := sinHour * 50
  let randomVariation : ℚ := (rand - 1/2) * 100
  let price := jsRound ((basePrice : ℚ) + timeVariation + randomVariation)
  max 6200 (min 7200 price)

/-- API-key truthiness plus the placeholder check, shared by both
services: `key && key !== 'your-gemini-api-key-here'`. -/
def apiKeyOk : Option String → Bool
  | none => false
  | some k => k ≠ "" && k ≠ "your-gemini-api-key-here"

/-- `fetchFromGemini` from the source, with the network modelled as the
optional reply text (`none` = request threw or the nested
`candidates[0].content.parts[0].text` field was absent; `some ""` is the
falsy empty text).  On a truthy text the reply is trimmed and parsed;
a missing/invalid reply or an unparsable text throws. -/
def fetchFromGemini (respText : Option String) : Except Unit Int :=
  match respText with
  | some t =>
    if t ≠ "" then
      match parseGoldPriceFromText (jsTrim t) with
      | some price => .ok price
      | none => .error ()
    else .error ()
  | none => .error ()

/-- `fetchFromAPI` from the source.  Returns the price together with the
updated `lastAiFetch`.  The source tries the model only when the key is
configured and the 10-minute interval has elapsed; `this.lastAiFetch = now`
executes after `await this.fetchFromGemini()` returns, i.e. only on
success — on failure the function falls through to the simulated price
with `lastAiFetch` unchanged.  The function itself never throws. -/
def fetchFromAPI (lastAiFetch now : Int) (apiKey : Option String)
    (respText : Option String) (sinHour rand : ℚ) : Int × Int :=
  if apiKeyOk apiKey && now - lastAiFetch ≥ aiFetchInterval then
    match fetchFromGemini respText with
    | .ok aiPrice => (aiPrice, now)
    | .error _ => (generateRealisticPrice sinHour rand, lastAiFetch)
  else (generateRealisticPrice sinHour rand, lastAiFetch)

/-- The mutable `this.cache` of the gold price service (`null` fields are
`none`). -/
structure PriceCache where
  price : Option Int
  lastUpdated : Option Int
deriving DecidableEq

/-- The result object of `getCurrentPrice`; `warning` models the presence
of the `error: 'API temporarily unavailable'` field of the
`cache_fallback` branch; `currency` is always `"INR"` in the source and
is omitted. -/
structure PriceQuote where
  price : Int
  source : String
  timestamp : Int
  warning : Bool
deriving DecidableEq

/-- JS truthiness of `this.cache.price` (a number: `null` and `0` falsy). -/
def priceTruthy : Option Int → Bool
  | none => false
  | some p => p ≠ 0

/-- JS truthiness of `this.cache.lastUpdated`. -/
def tsTruthy : Option Int → Bool
  | none => false
  | some u => u ≠ 0

/-- The cache-validity test of `getCurrentPrice`:
`this.cache.price && this.cache.lastUpdated && (now - lastUpdated) < cacheDuration`. -/
def priceCacheFresh (s : PriceCache) (now : Int) : Bool :=
  priceTruthy s.price && tsTruthy s.lastUpdated &&
    now - s.lastUpdated.getD 0 < priceCacheDuration

/-- `getCurrentPrice` from the source over an abstract fetch outcome
(`fetchOutcome` is the result of `await this.fetchFromAPI()`; the source's
own `fetchFromAPI` never rejects, but the `catch` branch guards the await
defensively, which is what the claims are about).  Returns the quote and
the updated cache, or throws (`Error('Gold price service unavailable…')`)
when the fetch fails and no truthy cached price exists. -/
def getCurrentPrice (s : PriceCache) (now : Int) (fetchOutcome : Except Unit Int) :
    Except Unit (PriceQuote × PriceCache) :=
  if priceCacheFresh s now then
    .ok ({ price := s.price.getD 0, source := "cache",
           timestamp := s.lastUpdated.getD 0, warning := false }, s)
  else
    match fetchOutcome with
    | .ok price =>
      .ok ({ price := price, source := "api", timestamp := now, warning := false },
           { price := some price, lastUpdated := some now })
    | .error _ =>
      if priceTruthy s.price && tsTruthy s.lastUpdated then
        .ok ({ price := s.price.getD 0, source := "cache_fallback",
               timestamp := s.lastUpdated.getD 0, warning := true }, s)
      else .error ()

/-- Well-formed price caches: both fields are set together, with nonzero
(truthy) values — every state reachable from the initial
`{price: null, lastUpdated: null}` by real executions has this shape. -/
def PriceCacheWF (s : PriceCache) : Prop :=
  (s.price = none ∧ s.lastUpdated = none) ∨
    (∃ p u, s.price = some p ∧ s.lastUpdated = some u ∧ p ≠ 0 ∧ u ≠ 0)

/-- One data point of `generatePriceHistory`. -/
structure HistoryPoint where
  timestamp : Int
  price : Int
  volume : Int
deriving DecidableEq

/-- The `switch (period)` of `generatePriceHistory`: data-point count,
spacing and start time (default branch = the `1d` parameters). -/
def periodParams (period : String) (now : Int) : Nat × Int × Int :=
  if period = "1d" then (24, 60 * 60 * 1000, now - 24 * 60 * 60 * 1000)
  else if period = "1w" then (7, 24 * 60 * 60 * 1000, now - 7 * 24 * 60 * 60 * 1000)
  else if period = "1m" then (30, 24 * 60 * 60 * 1000, now - 30 * 24 * 60 * 60 * 1000)
  else (24, 60 * 60 * 1000, now - 24 * 60 * 60 * 1000)

/-- `generatePriceHistory` from the source.  `rand i` is the i-th
`Math.random()` draw of the price loop, `sinTrend i` stands for
`Math.sin((i/dataPoints)·π)`, and `volRand i` is the volume draw; point
`i` has timestamp `startTime + i·timeInterval` and price
`Math.max(6000, Math.min(7500, Math.round(currentPrice + (rand i - 0.5)·200 + sinTrend i·150)))`. -/
def generatePriceHistory (currentPrice : Int) (period : String) (now : Int)
    (rand sinTrend volRand : Nat → ℚ) : List HistoryPoint :=
  let ps := periodParams period now
  let dataPoints := ps.1
  let timeInterval := ps.2.1
  let startTime := ps.2.2
  (List.range dataPoints).map fun i =>
    let variation : ℚ := (rand i - 1/2) * 200
    let trendVariation : ℚ := sinTrend i * 150
    let price := jsRound ((currentPrice : ℚ) + variation + trendVariation)
    { timestamp := startTime + (i : Int) * timeInterval,
      price := max 6000 (min 7500 price),
      volume := jsFloor (volRand i * 1000) + 100 }

/-- `getPriceHistory` from the source: `currentPrice` is
`this.cache.price || generateRealisticPrice()` and the history is
synthesized without any model call. -/
def getPriceHistory (s : PriceCache) (period : String) (now : Int)
    (sinHour randCur : ℚ) (rand sinTrend volRand : Nat → ℚ) : List HistoryPoint :=
  let currentPrice :=
    match s.price with
    | some p => if p = 0 then generateRealisticPrice sinHour randCur else p
    | none => generateRealisticPrice sinHour randCur
  generatePriceHistory currentPrice period now rand sinTrend volRand

/-! ## Chat orchestrator: intent analysis
(`server/services/chatbot.js`, `analyzeIntent`) -/

/-- The `Intent` object (`category`, `confidence`, `keywords`). -/
structure Intent where
  category : String
  confidence : ℚ
  keywords : List String
deriving DecidableEq

/-- The constructor's `goldInvestmentKeywords` list. -/
def goldInvestmentKeywords : List String :=
  ["gold", "invest", "buy", "purchase", "portfolio", "price", "rate",
   "savings", "money", "investment", "returns", "profit", "market"]

/-- JS `lowerMessage.includes kw`. -/
def strIncludes (s kw : String) : Bool := containsSeq kw.data s.data

/-- The greeting test `lowerMessage.match(/^(hi|hello|hey|good|greetings)/)`:
the anchored alternation succeeds exactly when one alternative is a
prefix. -/
def greetingMatch (s : String) : Bool :=
  ["hi", "hello", "hey", "good", "greetings"].any
    (fun w => List.isPrefixOf w.data s.data)

/-- `analyzeIntent` from the source. -/
def analyzeIntent (message : String) : Intent :=
  let lowerMessage := jsToLower message
  let goldKeywords := goldInvestmentKeywords.filter (strIncludes lowerMessage)
  if goldKeywords ≠ [] then
    if strIncludes lowerMessage "buy" || strIncludes lowerMessage "purchase" then
      { category := "purchase_intent", confidence := 0.9, keywords := goldKeywords }
    else if strIncludes lowerMessage "price" || strIncludes lowerMessage "rate" then
      { category := "price_inquiry", confidence := 0.8, keywords := goldKeywords }
    else if strIncludes lowerMessage "portfolio" || strIncludes lowerMessage "holdings" then
      { category := "portfolio_check", confidence := 0.9, keywords := goldKeywords }
    else
      { category := "gold_general", confidence := 0.7, keywords := goldKeywords }
  else if greetingMatch lowerMessage then
    { category := "greeting", confidence := 0.9, keywords := [] }
  else
    { category := "general", confidence := 0.5, keywords := [] }

/-! ## Chat orchestrator: replies, fallbacks, parsing
(`server/services/chatbot.js`) -/

/-- The `metadata` object attached to replies. -/
structure ReplyMeta where
  intent : String
  confidence : ℚ
  goldPrice : Int
  timestamp : Int
  source : String
  errorFlag : Bool := false
deriving DecidableEq

/-- The normalized reply object (`ChatReply` of the spec). -/
structure ChatReply where
  message : String
  suggestions : List String
  source : String
  metadata : ReplyMeta
  shouldOfferPurchase : Bool
  requireLogin : Bool
  suggestedAmount : Option Int
deriving DecidableEq

/-- One entry of the constructor's `fallbackResponses` table. -/
structure FallbackEntry where
  message : String
  suggestions : List String
deriving DecidableEq

/-- The `greeting` entry of the constructor's `fallbackResponses` table. -/
def greetingEntry : FallbackEntry :=
  { message := "Hello! I\x27m Aurora AI, your gold investment assistant. Ready to explore smart gold investments?",
    suggestions := ["Check gold prices", "Visit Buy Gold page", "Investment advice"] }

/-- The `gold_general` entry (also the table's lookup default). -/
def goldGeneralEntry : FallbackEntry :=
  { message := "Gold is a stable investment option. Visit our Buy Gold page for current market conditions and easy investing!",
    suggestions := ["Go to Buy Gold page", "Buy ₹500 gold", "Check portfolio"] }

/-- The `purchase_intent` entry. -/
def purchaseIntentEntry : FallbackEntry :=
  { message := "Great choice! Visit the Buy Gold page to start investing. I recommend starting with ₹1000 - ₹2500 for diversification.",
    suggestions := ["Visit Buy Gold page", "Buy ₹1000", "Learn more"] }

/-- The `portfolio_check` entry. -/
def portfolioCheckEntry : FallbackEntry :=
  { message := "To check your portfolio, please log in. After investing on the Buy Gold page, you can track your holdings!",
    suggestions := ["Login", "Visit Buy Gold page", "Investment tips"] }

/-- The `fallbackResponses` table, keyed by intent category. -/
def fallbackResponses (category : String) : Option FallbackEntry :=
  if category = "greeting" then some greetingEntry
  else if category = "gold_general" then some goldGeneralEntry
  else if category = "purchase_intent" then some purchaseIntentEntry
  else if category = "portfolio_check" then some portfolioCheckEntry
  else none

/-- `getDefaultSuggestions` from the source (`suggestionMap` with the
`gold_general` default). -/
def getDefaultSuggestions (intent : Intent) : List String :=
  if intent.category = "greeting" then
    ["Check gold prices", "Investment advice", "Portfolio help"]
  else if intent.category = "gold_general" then
    ["Buy ₹500 gold", "Buy ₹1000 gold", "Check portfolio"]
  else if intent.category = "purchase_intent" then
    ["Buy ₹1000", "Buy ₹2500", "Learn more"]
  else if intent.category = "portfolio_check" then
    ["Login", "Sign up", "Investment tips"]
  else if intent.category = "price_inquiry" then
    ["Buy now", "Set alert", "Price history"]
  else
    ["Buy ₹500 gold", "Buy ₹1000 gold", "Check portfolio"]

/-- `getErrorResponse` from the source: the fixed error reply. -/
def getErrorResponse (now : Int) : ChatReply :=
  { message := "I apologize, but I\x27m having a temporary issue. Let me help you with gold investment opportunities - would you like to know about current gold prices?",
    suggestions := ["Check gold prices", "Investment advice", "Try again"],
    source := "error",
    metadata := { intent := "error", confidence := 0.3, goldPrice := 6850,
                  timestamp := now, source := "error", errorFlag := true },
    shouldOfferPurchase := true,
    requireLogin := false,
    suggestedAmount := some 500 }

/-- JS `intent.confidence || d`. -/
def jsOrConf (c d : ℚ) : ℚ := if c = 0 then d else c

/-- `getFallbackResponse` from the source.  The template substitution
`baseResponse.message.replace('Rs XXX', ...)` replaces the first
occurrence of `"Rs XXX"` (which occurs in none of the table's messages);
`baseResponse.suggestions` is always truthy, so the `||` default list of
the source is dead code and the entry's own list is used. -/
def getFallbackResponse (intent : Intent) (goldPrice : Int) (now : Int) : ChatReply :=
  let base := (fallbackResponses intent.category).getD goldGeneralEntry
  { message := jsReplaceFirst base.message "Rs XXX"
      (String.mk ('₹' :: (toString (jsOrInt goldPrice 6850)).data)),
    suggestions := base.suggestions,
    source := "fallback",
    metadata := { intent := intent.category, confidence := jsOrConf intent.confidence 0.5,
                  goldPrice := jsOrInt goldPrice 6850, timestamp := now,
                  source := "fallback" },
    shouldOfferPurchase := intent.category = "purchase_intent",
    requireLogin := intent.category = "portfolio_check",
    suggestedAmount := if intent.category = "purchase_intent" then some 1000 else none }

/-- Result of the `JSON.parse` oracle for Strategy 2 of
`parseGeminiResponse`: `message` is the object's `message` field when it
is a string (`none` when absent), `suggestionsTruthy` is the JS
truthiness of the `suggestions` field, and `suggestionsArray` is its
value when `Array.isArray` holds for it. -/
structure ParsedObj where
  message : Option String
  suggestionsTruthy : Bool
  suggestionsArray : Option (List String)

/-- The open-brace character (`{`). -/
def braceOpen : Char := Char.ofNat 123

/-- The close-brace character (`}`). -/
def braceClose : Char := Char.ofNat 125

/-- Drop everything up to and including the first occurrence of `pat`;
`none` when `pat` does not occur. -/
def dropThroughSeq (pat : List Char) : List Char → Option (List Char)
  | [] => if List.isPrefixOf pat ([] : List Char) then some [] else none
  | c :: rest =>
    if List.isPrefixOf pat (c :: rest) then some ((c :: rest).drop pat.length)
    else dropThroughSeq pat rest

/-- Containment of `"message"` then `"suggestions"` in order, the
`[^{}]*"message"[^{}]*"suggestions"[^{}]*` core of the Strategy 2 regex
applied to a brace-free body. -/
def hasMsgThenSuggestions (body : List Char) : Bool :=
  match dropThroughSeq "\"message\"".data body with
  | some rest => containsSeq "\"suggestions\"".data rest
  | none => false

/-- Strategy 2 regex `\{[^{}]*"message"[^{}]*"suggestions"[^{}]*\}`:
leftmost occurrence of an open brace whose following brace-free body is
closed by `}` and contains `"message"` then `"suggestions"`; returns the
matched substring. -/
def strat2Match : List Char → Option (List Char)
  | [] => none
  | c :: rest =>
    if c = braceOpen then
      let body := rest.takeWhile (fun d => d ≠ braceOpen && d ≠ braceClose)
      let after := rest.dropWhile (fun d => d ≠ braceOpen && d ≠ braceClose)
      if after.head? = some braceClose && hasMsgThenSuggestions body then
        some (braceOpen :: body ++ [braceClose])
      else strat2Match rest
    else strat2Match rest

/-- Strategy 3 regex `/"message"\s*:\s*"([^"]+)"/`: at each position, the
literal `"message"`, optional whitespace, a colon, optional whitespace,
a quote, a non-empty greedy run of non-quote characters, and a closing
quote; returns the captured group. -/
def strat3Match : List Char → Option (List Char)
  | [] => none
  | c :: rest =>
    if List.isPrefixOf "\"message\"".data (c :: rest) then
      let r1 := (c :: rest).drop 9
      let r2 := r1.dropWhile isWsCh
      if r2.head? = some ':' then
        let r3 := (r2.drop 1).dropWhile isWsCh
        if r3.head? = some '"' then
          let grp := (r3.drop 1).takeWhile (fun d => d ≠ '"')
          let r4 := (r3.drop 1).dropWhile (fun d => d ≠ '"')
          if !grp.isEmpty && r4.head? = some '"' then some grp
          else strat3Match rest
        else strat3Match rest
      else strat3Match rest
    else strat3Match rest

/-- The fixed generic message of the final fallback of
`parseGeminiResponse`. -/
def genericPriceMessage (goldPrice : Int) : String :=
  String.mk ("I\x27m here to help you with gold investment. Current price is ₹".data
    ++ (toString goldPrice).data ++ "/g.".data)

/-- Strategies 3–5 of `parseGeminiResponse` (reached when strategies 1
and 2 do not return). -/
def parseStrat3Onward (aiText : String) (intent : Intent) (goldPrice : Int)
    (now : Int) : ChatReply :=
  match strat3Match aiText.data with
  | some grp =>
    { message := String.mk grp,
      suggestions := getDefaultSuggestions intent,
      source := "gemini_extracted",
      metadata := { intent := intent.category, confidence := jsOrConf intent.confidence 0.7,
                    goldPrice := goldPrice, timestamp := now, source := "gemini_extracted" },
      shouldOfferPurchase := intent.category = "purchase_intent",
      requireLogin := intent.category = "portfolio_check",
      suggestedAmount := if intent.category = "purchase_intent" then some 1000 else none }
  | none =>
    let firstSentence := aiText.data.takeWhile (fun d => d ≠ '.') ++ ['.']
    if aiText.data.length > 200 ∧
        firstSentence.length > 10 ∧ firstSentence.length < 200 then
      { message := String.mk (trimChars firstSentence),
        suggestions := getDefaultSuggestions intent,
        source := "gemini_truncated",
        metadata := { intent := intent.category, confidence := jsOrConf intent.confidence 0.6,
                      goldPrice := goldPrice, timestamp := now, source := "gemini_truncated" },
        shouldOfferPurchase := intent.category = "purchase_intent",
        requireLogin := intent.category = "portfolio_check",
        suggestedAmount := if intent.category = "purchase_intent" then some 1000 else none }
    else
      { message := if aiText.data.length < 300 then jsTrim aiText
                   else genericPriceMessage goldPrice,
        suggestions := getDefaultSuggestions intent,
        source := "gemini_fallback",
        metadata := { intent := intent.category, confidence := jsOrConf intent.confidence 0.5,
                      goldPrice := goldPrice, timestamp := now, source := "gemini_fallback" },
        shouldOfferPurchase := intent.category = "purchase_intent",
        requireLogin := intent.category = "portfolio_check",
        suggestedAmount := if intent.category = "purchase_intent" then some 1000 else none }

/-- `parseGeminiResponse` from the source.  `jsonParse` is the
`JSON.parse` builtin as an oracle; when it throws, the surrounding
`catch` returns `getFallbackResponse` (the only statement inside the
`try` that can throw). -/
def parseGeminiResponse (aiText : String) (intent : Intent) (goldPrice : Int)
    (now : Int) (jsonParse : String → Except Unit ParsedObj) : ChatReply :=
  if aiText.data.head? ≠ some braceOpen &&
      !containsSeq "\"message\"".data aiText.data && aiText.data.length < 300 then
    { message := jsTrim aiText,
      suggestions := getDefaultSuggestions intent,
      source := "gemini_text",
      metadata := { intent := intent.category, confidence := jsOrConf intent.confidence 0.9,
                    goldPrice := goldPrice, timestamp := now, source := "gemini_text" },
      shouldOfferPurchase := intent.category = "purchase_intent",
      requireLogin := intent.category = "portfolio_check",
      suggestedAmount := if intent.category = "purchase_intent" then some 1000 else none }
  else
    match strat2Match aiText.data with
    | some sub =>
      match jsonParse (String.mk sub) with
      | .error _ => getFallbackResponse intent goldPrice now
      | .ok parsed =>
        if (parsed.message.elim false (fun m => m ≠ "")) && parsed.suggestionsTruthy then
          { message := parsed.message.getD "",
            suggestions := parsed.suggestionsArray.getD (getDefaultSuggestions intent),
            source := "gemini_json",
            metadata := { intent := intent.category,
                          confidence := jsOrConf intent.confidence 0.8,
                          goldPrice := goldPrice, timestamp := now, source := "gemini_json" },
            shouldOfferPurchase := intent.category = "purchase_intent",
            requireLogin := intent.category = "portfolio_check",
            suggestedAmount := if intent.category = "purchase_intent" then some 1000 else none }
        else parseStrat3Onward aiText intent goldPrice now
    | none => parseStrat3Onward aiText intent goldPrice now

/-! ## Chat orchestrator: response cache
(`server/services/chatbot.js`, `getCachedResponse` / `setCachedResponse`) -/

/-- One cache entry: the stored reply plus its insertion timestamp. -/
structure CacheEntry where
  response : ChatReply
  timestamp : Int
deriving DecidableEq

/-- The `responseCache` `Map`, modelled as an insertion-ordered
association list (head = oldest insertion, matching `Map` iteration
order). -/
abbrev ChatCache := List (String × CacheEntry)

/-- Constructor constant `cacheExpiry`: 20 minutes in milliseconds. -/
def chatCacheExpiry : Int := 20 * 60 * 1000

/-- `Map.prototype.delete key` (at most one entry per key). -/
def deleteKey (m : ChatCache) (k : String) : ChatCache :=
  m.eraseP (fun e => e.1 = k)

/-- `Map.prototype.set key e`: update in place when the key is present
(keeping its insertion-order position), append otherwise. -/
def mapSet (m : ChatCache) (k : String) (e : CacheEntry) : ChatCache :=
  if (List.lookup k m).isSome then
    m.map (fun p => if p.1 = k then (k, e) else p)
  else m ++ [(k, e)]

/-- `getCachedResponse` from the source: return a fresh entry's response;
otherwise delete the key and return `null`.  Returns the hit and the
(possibly mutated) cache. -/
def getCachedResponse (m : ChatCache) (key : String) (now : Int) :
    Option ChatReply × ChatCache :=
  match List.lookup key m with
  | some cached =>
    if now - cached.timestamp < chatCacheExpiry then (some cached.response, m)
    else (none, deleteKey m key)
  | none => (none, deleteKey m key)

/-- `setCachedResponse` from the source: insert, then if the map exceeds
100 entries delete its first (oldest) key. -/
def setCachedResponse (m : ChatCache) (key : String) (r : ChatReply) (now : Int) :
    ChatCache :=
  let m' := mapSet m key { response := r, timestamp := now }
  if m'.length > 100 then
    match m'.head? with
    | some firstEntry => deleteKey m' firstEntry.1
    | none => m'
  else m'

/-- Scenario helper for the cache-bound property: insert a sequence of
keys (with a fixed reply and timestamp) by repeated `setCachedResponse`
calls. -/
def insertAll (m : ChatCache) (ks : List String) (r : ChatReply) (t : Int) : ChatCache :=
  ks.foldl (fun acc k => setCachedResponse acc k r t) m

/-! ## Chat orchestrator: message processing
(`server/services/chatbot.js`, `processMessage`) -/

/-- Constructor constant `minRequestInterval` (3 seconds). -/
def minRequestInterval : Int := 3000

/-- `shouldUseAI` from the source: at least `minRequestInterval` elapsed
since the last model request. -/
def shouldUseAI (now lastRequestTime : Int) : Bool :=
  now - lastRequestTime ≥ minRequestInterval

/-- The cache key of `processMessage`:
`` `${message.toLowerCase().trim()}_${userId || 'guest'}` ``. -/
def cacheKeyFor (message : String) (userId : Option String) : String :=
  jsTrim (jsToLower message) ++ "_" ++ jsOrStr userId "guest"

/-- `getGeminiResponse` from the source, over the network outcome:
`.error` models a rejected `axios.post`; `.ok t` models a response whose
nested `candidates[0].content.parts[0].text` field is `t` (`none` =
absent).  A truthy text is trimmed and handed to `parseGeminiResponse`
(which never throws); otherwise the function throws
(`Error('Invalid Gemini API response')`). -/
def getGeminiResponse (outcome : Except Unit (Option String)) (intent : Intent)
    (goldPrice : Int) (now : Int) (jsonParse : String → Except Unit ParsedObj) :
    Except Unit ChatReply :=
  match outcome with
  | .error _ => .error ()
  | .ok t? =>
    match t? with
    | some t =>
      if t ≠ "" then .ok (parseGeminiResponse (jsTrim t) intent goldPrice now jsonParse)
      else .error ()
    | none => .error ()

/-- The inputs and effect oracles of one `processMessage` call.
`priceOutcome` is the outcome of `goldPriceService.getCurrentPrice()`
(see `getCurrentPrice`); `aiOutcome` is the network outcome consumed by
`getGeminiResponse` (the throttle queue, modelled separately by
`drainLoop`, resolves the enqueued job with exactly that call's result). -/
structure PMInput where
  message : String
  userId : Option String
  currentGoldPrice : Option Int
  now : Int
  lastRequestTime : Int
  apiKey : Option String
  priceOutcome : Except Unit Int
  aiOutcome : Except Unit (Option String)

/-- The gold price resolution step of `processMessage`:
`currentGoldPrice || (await goldPriceService.getCurrentPrice()).price`
(a truthy provided price short-circuits; otherwise the price service's
outcome is awaited and may throw). -/
def resolveGoldPrice (i : PMInput) : Except Unit Int :=
  match i.currentGoldPrice with
  | some p => if p = 0 then i.priceOutcome else .ok p
  | none => i.priceOutcome

/-- The body of the `try` block of `processMessage`: everything up to the
final merged reply.  Mutations of the cache performed before a throw
persist (JS semantics), so the cache is returned in both outcomes. -/
def processMessageCore (i : PMInput) (jsonParse : String → Except Unit ParsedObj)
    (cache : ChatCache) : Except Unit ChatReply × ChatCache :=
  let cacheKey := cacheKeyFor i.message i.userId
  let hit := getCachedResponse cache cacheKey i.now
  match hit.1 with
  | some cachedResponse => (.ok cachedResponse, hit.2)
  | none =>
    match resolveGoldPrice i with
    | .error _ => (.error (), hit.2)
    | .ok goldPrice =>
      let intent := analyzeIntent i.message
      let response :=
        if shouldUseAI i.now i.lastRequestTime && apiKeyOk i.apiKey then
          match getGeminiResponse i.aiOutcome intent goldPrice i.now jsonParse with
          | .ok r => r
          | .error _ => getFallbackResponse intent goldPrice i.now
        else getFallbackResponse intent goldPrice i.now
      let cache2 := setCachedResponse hit.2 cacheKey response i.now
      let merged :=
        { response with
          metadata := { intent := intent.category, confidence := intent.confidence,
                        goldPrice := goldPrice, timestamp := i.now,
                        source := if response.source = "" then "ai" else response.source } }
      (.ok merged, cache2)

/-- `processMessage` from the source: the `try`/`catch` wrapper — any
internal throw is absorbed and converted to `getErrorResponse()`. -/
def processMessage (i : PMInput) (jsonParse : String → Except Unit ParsedObj)
    (cache : ChatCache) : ChatReply × ChatCache :=
  match processMessageCore i jsonParse cache with
  | (.ok reply, c) => (reply, c)
  | (.error _, c) => (getErrorResponse i.now, c)

/-! ## Request throttle queue
(`server/services/chatbot.js`, `processQueue`) -/

/-- One queued model-call job: `duration` is the wall-clock time the
dispatched `getGeminiResponse` call takes and `succeeds` whether it
resolves (`true`) or rejects (`false`). -/
structure QJob where
  id : Nat
  duration : Int
  succeeds : Bool
deriving DecidableEq

/-- The `while` loop of `processQueue`, in virtual time.  At each
iteration: if less than `minRequestInterval` has elapsed since
`lastRequestTime`, sleep until `lastRequestTime + minRequestInterval`;
shift the oldest job; dispatch it; on success set `lastRequestTime` to
the completion time (`Date.now()` after the `await`) — on failure the
source's `catch` skips that update.  Returns the dispatch log (job id,
dispatch start time) and the final `(lastRequestTime, clock)`. -/
def dispatchStart (lastRequestTime now : Int) : Int :=
  if now - lastRequestTime < minRequestInterval
  then lastRequestTime + minRequestInterval else now

def drainLoop : List QJob → Int → Int → List (Nat × Int) × (Int × Int)
  | [], lastRequestTime, now => ([], (lastRequestTime, now))
  | job :: rest, lastRequestTime, now =>
    let start := dispatchStart lastRequestTime now
    let finish := start + job.duration
    let lastRequestTime' := if job.succeeds then finish else lastRequestTime
    let next := drainLoop rest lastRequestTime' finish
    ((job.id, start) :: next.1, next.2)

/-- The throttle state of the chat service (`requestQueue`, `processing`,
`lastRequestTime`). -/
structure ThrottleState where
  queue : List QJob
  processing : Bool
  lastRequestTime : Int
deriving DecidableEq

/-- `processQueue` from the source: an early return when a drain is
already in progress or the queue is empty; otherwise set the processing
flag, drain the whole queue, release the flag.  Returns the dispatch log
and the resulting state. -/
def processQueue (s : ThrottleState) (now : Int) :
    List (Nat × Int) × ThrottleState :=
  if s.processing || s.queue.isEmpty then ([], s)
  else
    let result := drainLoop s.queue s.lastRequestTime now
    (result.1, { queue := [], processing := false, lastRequestTime := result.2.1 })

/-- Minimum-interval separation of consecutive entries of a dispatch
log (decidable by construction). -/
def dispatchesSeparated : List (Nat × Int) → Bool
  | [] => true
  | [_] => true
  | a :: b :: rest => (a.2 + minRequestInterval ≤ b.2) && dispatchesSeparated (b :: rest)

/-! ## Shared lemmas about the price parser -/

theorem parseStage4_valid (cs : List Char) (p : Int)
    (h : parseStage4 cs = some p) : isValidGoldPrice p = true :=
  List.find?_some h

theorem parseStage3_valid (cs : List Char) (p : Int)
    (h : parseStage3 cs = some p) : isValidGoldPrice p = true := by
  unfold parseStage3 at h
  split at h
  · split at h
    · injection h with h'; subst h'; assumption
    · exact parseStage4_valid cs p h
  · exact parseStage4_valid cs p h

theorem parseStage2_valid (cs : List Char) (p : Int)
    (h : parseStage2 cs = some p) : isValidGoldPrice p = true := by
  unfold parseStage2 at h
  split at h
  · rename_i q hfind; injection h with h'; subst h'; exact List.find?_some hfind
  · exact parseStage3_valid cs p h

theorem parseGoldPriceFromText_valid (text : String) (p : Int)
    (h : parseGoldPriceFromText text = some p) : isValidGoldPrice p = true := by
  unfold parseGoldPriceFromText at h
  split at h
  · split at h
    · injection h with h'; subst h'; assumption
    · exact parseStage2_valid text.data p h
  · exact parseStage2_valid text.data p h

/-! ## C4 -/

/-- C4: every price returned by `parseGoldPriceFromText` passed the
`isValidGoldPrice` gate, hence lies in [5500, 8000]; and
`generateRealisticPrice` always returns an integer clamped into
[6200, 7200], whatever the time-of-day sine value and the random draw. -/
theorem c4_parser_gated_and_synthesis_bounded :
    (∀ (text : String) (p : Int), parseGoldPriceFromText text = some p →
      5500 ≤ p ∧ p ≤ 8000) ∧
    (∀ (sinHour rand : ℚ),
      6200 ≤ generateRealisticPrice sinHour rand ∧
        generateRealisticPrice sinHour rand ≤ 7200) := by
  constructor
  · intro text p h
    have hv := parseGoldPriceFromText_valid text p h
    simpa [isValidGoldPrice] using hv
  · intro sinHour rand
    unfold generateRealisticPrice
    exact ⟨le_max_left _ _, max_le (by norm_num) (min_le_left _ _)⟩

/-- C4 witness: the parser accepts the in-range reply `"6850"`. -/
theorem c4_witness :
    parseGoldPriceFromText "6850" = some 6850 ∧
      (5500 ≤ (6850 : Int) ∧ (6850 : Int) ≤ 8000) :=
  ⟨by decide, c4_parser_gated_and_synthesis_bounded.1 "6850" 6850 (by decide)⟩

/-! ## C3 -/

/-- C3 counterexample: with the key configured, the interval elapsed and
a failing model call (`respText = none`), `fetchFromAPI` does not update
`lastAiFetch` to the attempt time, contradicting the claim that the
timestamp is recorded regardless of success. -/
theorem c3_counterexample :
    apiKeyOk (some "k") = true ∧
    (600000 : Int) - 0 ≥ aiFetchInterval ∧
    fetchFromGemini none = .error () ∧
    (fetchFromAPI 0 600000 (some "k") none 0 0).2 ≠ 600000 := by
  refine ⟨by decide, by decide, rfl, ?_⟩
  have h : (fetchFromAPI 0 600000 (some "k") none 0 0).2 = 0 := by
    simp [fetchFromAPI, apiKeyOk, fetchFromGemini, aiFetchInterval]
  rw [h]; decide

/-- C3 (amended): when a model call is attempted (key configured and the
10-minute interval elapsed), `lastAiFetch` is set to the attempt time
only if the call succeeds; a failed call leaves it unchanged, so a failed
call does not consume the throttle window. -/
theorem c3_lastAiFetch_updated_only_on_success
    (lastAiFetch now : Int) (apiKey : Option String) (respText : Option String)
    (sinHour rand : ℚ)
    (hkey : apiKeyOk apiKey = true)
    (hint : now - lastAiFetch ≥ aiFetchInterval) :
    ((∃ p, fetchFromGemini respText = .ok p) →
      (fetchFromAPI lastAiFetch now apiKey respText sinHour rand).2 = now) ∧
    (fetchFromGemini respText = .error () →
      (fetchFromAPI lastAiFetch now apiKey respText sinHour rand).2 = lastAiFetch) := by
  constructor
  · rintro ⟨p, hp⟩
    simp [fetchFromAPI, hkey, hint, hp]
  · intro hfail
    simp [fetchFromAPI, hkey, hint, hfail]

/-- C3 witness: a concrete attempted call with a parsable reply. -/
theorem c3_witness :
    apiKeyOk (some "k") = true ∧ (600000 : Int) - 0 ≥ aiFetchInterval ∧
    (((∃ p, fetchFromGemini (some "6850") = .ok p) →
        (fetchFromAPI 0 600000 (some "k") (some "6850") 0 0).2 = 600000) ∧
      (fetchFromGemini (some "6850") = .error () →
        (fetchFromAPI 0 600000 (some "k") (some "6850") 0 0).2 = 0)) :=
  ⟨by decide, by decide,
    c3_lastAiFetch_updated_only_on_success 0 600000 (some "k") (some "6850") 0 0
      (by decide) (by decide)⟩

/-! ## Shared lemmas about getCurrentPrice -/

theorem priceTruthy_some (o : Option Int) (h : priceTruthy o = true) :
    ∃ p, o = some p ∧ p ≠ 0 := by
  cases o with
  | none => cases h
  | some p => exact ⟨p, rfl, by simpa [priceTruthy] using h⟩

theorem priceCacheFresh_truthy (s : PriceCache) (now : Int)
    (h : priceCacheFresh s now = true) :
    priceTruthy s.price = true ∧ tsTruthy s.lastUpdated = true := by
  simp only [priceCacheFresh, Bool.and_eq_true] at h
  exact ⟨h.1.1, h.1.2⟩

theorem getCurrentPrice_ok_cachePrice (s : PriceCache) (now : Int)
    (f : Except Unit Int) (r : PriceQuote) (s' : PriceCache)
    (h : getCurrentPrice s now f = .ok (r, s')) : s'.price = some r.price := by
  unfold getCurrentPrice at h
  by_cases hf : priceCacheFresh s now = true
  · rw [if_pos hf] at h
    injection h with h'
    injection h' with hr hs
    obtain ⟨p, hp, -⟩ := priceTruthy_some s.price (priceCacheFresh_truthy s now hf).1
    subst hs
    rw [← hr, hp]
    simp [hp]
  · rw [if_neg hf] at h
    cases f with
    | ok v =>
      injection h with h'
      injection h' with hr hs
      rw [← hr, ← hs]
    | error e =>
      by_cases ht : (priceTruthy s.price && tsTruthy s.lastUpdated) = true
      · rw [if_pos ht] at h
        injection h with h'
        injection h' with hr hs
        obtain ⟨p, hp, -⟩ := priceTruthy_some s.price (by simp at ht; exact ht.1)
        subst hs
        rw [← hr, hp]
        simp [hp]
      · rw [if_neg ht] at h
        cases h

/-! ## C9 -/

/-- C9: if one `getCurrentPrice` call returns a quote, then any second
call made while the resulting cache entry is still inside the 3-minute
window hits the cache branch and returns the identical price (whatever
its own fetch outcome would have been). -/
theorem c9_idempotent_within_cache_window
    (s : PriceCache) (t1 : Int) (f1 : Except Unit Int) (r1 : PriceQuote) (s1 : PriceCache)
    (h1 : getCurrentPrice s t1 f1 = .ok (r1, s1))
    (t2 : Int) (f2 : Except Unit Int)
    (hfresh : priceCacheFresh s1 t2 = true) :
    ∃ r2, getCurrentPrice s1 t2 f2 = .ok (r2, s1) ∧ r2.price = r1.price := by
  have hsp : s1.price = some r1.price := getCurrentPrice_ok_cachePrice s t1 f1 r1 s1 h1
  refine ⟨{ price := r1.price, source := "cache",
            timestamp := s1.lastUpdated.getD 0, warning := false }, ?_, rfl⟩
  simp [getCurrentPrice, hfresh, hsp]

/-- C9 witness: a fetch at t=1000 followed by a call at t=2000. -/
theorem c9_witness :
    getCurrentPrice ⟨none, none⟩ 1000 (.ok 6850) =
      .ok ({ price := 6850, source := "api", timestamp := 1000, warning := false },
           ⟨some 6850, some 1000⟩) ∧
    priceCacheFresh ⟨some 6850, some 1000⟩ 2000 = true ∧
    ∃ r2, getCurrentPrice ⟨some 6850, some 1000⟩ 2000 (.error ()) =
        .ok (r2, ⟨some 6850, some 1000⟩) ∧
      r2.price = ({ price := 6850, source := "api", timestamp := 1000,
                    warning := false } : PriceQuote).price :=
  ⟨by rfl, by decide,
    c9_idempotent_within_cache_window ⟨none, none⟩ 1000 (.ok 6850) _ _ (by rfl)
      2000 (.error ()) (by decide)⟩

/-! ## C2 -/

/-- C2: on a well-formed cache state, `getCurrentPrice` throws exactly
when no cached price exists and the fetch outcome is a throw; whenever
the fetch step fails while a cached price exists (the cache-branch test
having failed), the cached price is returned tagged `cache_fallback`
with the warning field attached. -/
theorem c2_unavailable_iff_no_cache (s : PriceCache) (now : Int) (f : Except Unit Int)
    (hwf : PriceCacheWF s) :
    (getCurrentPrice s now f = .error () ↔ s.price = none ∧ f = .error ()) ∧
    (∀ p u, s.price = some p → s.lastUpdated = some u →
      priceCacheFresh s now = false → f = .error () →
      getCurrentPrice s now f =
        .ok ({ price := p, source := "cache_fallback", timestamp := u, warning := true }, s)) := by
  obtain ⟨hp, hu⟩ | ⟨p, u, hp, hu, hpne, hune⟩ := hwf
  · constructor
    · cases f with
      | ok v =>
        simp [getCurrentPrice, priceCacheFresh, priceTruthy, hp, hu]
      | error e =>
        simp [getCurrentPrice, priceCacheFresh, priceTruthy, tsTruthy, hp, hu]
    · intro p' u' hp' hu' _ _
      rw [hp] at hp'; cases hp'
  · constructor
    · constructor
      · intro herr
        exfalso
        by_cases hf : priceCacheFresh s now = true
        · simp [getCurrentPrice, hf] at herr
        · cases f with
          | ok v =>
            simp [getCurrentPrice, hf] at herr
          | error e =>
            simp [getCurrentPrice, hf, priceTruthy, tsTruthy, hp, hu, hpne, hune] at herr
      · rintro ⟨hnone, -⟩
        rw [hp] at hnone; cases hnone
    · intro p' u' hp' hu' hfresh hf
      rw [hp] at hp'; injection hp' with e1
      rw [hu] at hu'; injection hu' with e2
      subst e1; subst e2
      subst hf
      simp [getCurrentPrice, hfresh, priceTruthy, tsTruthy, hp, hu, hpne, hune]

/-- C2 witness: a stale cached price with a failing fetch. -/
theorem c2_witness :
    PriceCacheWF ⟨some 6850, some 1000⟩ ∧
    ((getCurrentPrice ⟨some 6850, some 1000⟩ 1000000 (.error ()) = .error () ↔
        (⟨some 6850, some 1000⟩ : PriceCache).price = none ∧
          (.error () : Except Unit Int) = .error ()) ∧
      (∀ p u, (⟨some 6850, some 1000⟩ : PriceCache).price = some p →
        (⟨some 6850, some 1000⟩ : PriceCache).lastUpdated = some u →
        priceCacheFresh ⟨some 6850, some 1000⟩ 1000000 = false →
        (.error () : Except Unit Int) = .error () →
        getCurrentPrice ⟨some 6850, some 1000⟩ 1000000 (.error ()) =
          .ok ({ price := p, source := "cache_fallback", timestamp := u, warning := true },
               ⟨some 6850, some 1000⟩))) :=
  ⟨Or.inr ⟨6850, 1000, rfl, rfl, by decide, by decide⟩,
    c2_unavailable_iff_no_cache ⟨some 6850, some 1000⟩ 1000000 (.error ())
      (Or.inr ⟨6850, 1000, rfl, rfl, by decide, by decide⟩)⟩

theorem periodParams_1w (now : Int) :
    periodParams "1w" now = (7, 86400000, now - 604800000) := by
  unfold periodParams
  rw [if_neg (by decide), if_pos rfl]
  norm_num

/-! ## C6 -/

/-- C6 counterexample: for `getPriceHistory("1w")` the last of the 7
points has timestamp `now - 1 day`, not `now` — the points run from
`now - 7 days` to `now - 1 day`. -/
theorem c6_counterexample :
    ((getPriceHistory ⟨some 6850, some 0⟩ "1w" 1700000000000 0 0
        (fun _ => 0) (fun _ => 0) (fun _ => 0)).getLast?.map HistoryPoint.timestamp)
      = some (1700000000000 - 86400000) ∧
    (1700000000000 - 86400000 : Int) ≠ 1700000000000 := by
  constructor
  · decide
  · decide

/-- C6 (amended): `generatePriceHistory` for `"1w"` yields exactly 7
points; point `i` (0-based) is stamped `now - 7 days + i days` — so the
spacing is exactly 1 day and the last point sits at `now - 1 day` — and
every price is clamped into [6000, 7500]. -/
theorem c6_history_1w_shape (currentPrice now : Int) (rand sinTrend volRand : Nat → ℚ) :
    (generatePriceHistory currentPrice "1w" now rand sinTrend volRand).length = 7 ∧
    (∀ i : Nat, i < 7 → ∃ pt,
      (generatePriceHistory currentPrice "1w" now rand sinTrend volRand)[i]? = some pt ∧
      pt.timestamp = now - 604800000 + (i : Int) * 86400000 ∧
      6000 ≤ pt.price ∧ pt.price ≤ 7500) := by
  constructor
  · simp [generatePriceHistory, periodParams_1w]
  · intro i hi
    have hget : (generatePriceHistory currentPrice "1w" now rand sinTrend volRand)[i]? =
        some { timestamp := now - 604800000 + (i : Int) * 86400000,
               price := max 6000 (min 7500 (jsRound ((currentPrice : ℚ) +
                 (rand i - 1/2) * 200 + sinTrend i * 150))),
               volume := jsFloor (volRand i * 1000) + 100 } := by
      simp only [generatePriceHistory, periodParams_1w]
      rw [List.getElem?_map, List.getElem?_range hi]
      rfl
    exact ⟨_, hget, rfl, le_max_left _ _, max_le (by norm_num) (min_le_left _ _)⟩

/-- C6 witness: the shape facts at a concrete input, instantiated at the
last point. -/
theorem c6_witness :
    (generatePriceHistory 6850 "1w" 1700000000000
      (fun _ => 0) (fun _ => 0) (fun _ => 0)).length = 7 ∧
    ∃ pt, (generatePriceHistory 6850 "1w" 1700000000000
        (fun _ => 0) (fun _ => 0) (fun _ => 0))[(6 : Nat)]? = some pt ∧
      pt.timestamp = 1700000000000 - 604800000 + ((6 : Nat) : Int) * 86400000 ∧
      6000 ≤ pt.price ∧ pt.price ≤ 7500 :=
  ⟨(c6_history_1w_shape 6850 1700000000000 (fun _ => 0) (fun _ => 0) (fun _ => 0)).1,
   (c6_history_1w_shape 6850 1700000000000 (fun _ => 0) (fun _ => 0) (fun _ => 0)).2
     6 (by decide)⟩

/-! ## Shared lemmas about the throttle queue -/

theorem dispatchStart_self (t : Int) : dispatchStart t t = t + minRequestInterval := by
  have h : t - t < minRequestInterval := by unfold minRequestInterval; omega
  unfold dispatchStart
  rw [if_pos h]

theorem drainLoop_log_cons (j : QJob) (rest : List QJob) (last now : Int) :
    (drainLoop (j :: rest) last now).1 =
      (j.id, dispatchStart last now) ::
        (drainLoop rest
          (if j.succeeds then dispatchStart last now + j.duration else last)
          (dispatchStart last now + j.duration)).1 := rfl

theorem drainLoop_fifo (q : List QJob) (last now : Int) :
    (drainLoop q last now).1.map Prod.fst = q.map QJob.id := by
  induction q generalizing last now with
  | nil => rfl
  | cons j rest ih => simp [drainLoop, ih]

theorem drainLoop_separated (q : List QJob) (last now : Int)
    (hq : ∀ j ∈ q, j.succeeds = true ∧ 0 ≤ j.duration) :
    dispatchesSeparated (drainLoop q last now).1 = true := by
  induction q generalizing last now with
  | nil => rfl
  | cons j rest ih =>
    obtain ⟨hjs, hjd⟩ := hq j (List.mem_cons_self j rest)
    have hrest : ∀ j' ∈ rest, j'.succeeds = true ∧ 0 ≤ j'.duration :=
      fun j' hj' => hq j' (List.mem_cons_of_mem j hj')
    cases rest with
    | nil => simp [drainLoop, dispatchesSeparated]
    | cons j2 rest2 =>
      rw [drainLoop_log_cons, if_pos hjs]
      have hinner := ih (dispatchStart last now + j.duration)
        (dispatchStart last now + j.duration) hrest
      rw [drainLoop_log_cons, dispatchStart_self] at hinner ⊢
      simp only [dispatchesSeparated, Bool.and_eq_true, decide_eq_true_eq] at hinner ⊢
      refine ⟨by omega, hinner⟩

/-! ## C5 -/

/-- C5 counterexample: two jobs where the first fails (rejects) — the
`catch` of `processQueue` skips the `lastRequestTime` update, so the
second job is dispatched at the same instant as the first, violating the
claimed minimum 3-second separation of consecutive dispatches. -/
theorem c5_counterexample :
    (processQueue ⟨[⟨0, 0, false⟩, ⟨1, 0, true⟩], false, 0⟩ 10000).1
      = [(0, 10000), (1, 10000)] ∧
    dispatchesSeparated [(0, 10000), (1, 10000)] = false :=
  ⟨by decide, by decide⟩

/-- C5 (amended): jobs are always dispatched in FIFO order; when every
dispatched call succeeds (and durations are nonnegative), consecutive
dispatches are separated by at least `minRequestInterval`; and a drain in
progress is never re-entered — `processQueue` with the processing flag
set returns immediately without dispatching.  (After a failed call the
next dispatch may follow immediately, since the failure path skips the
`lastRequestTime` update.) -/
theorem c5_fifo_separation_reentrancy :
    (∀ (q : List QJob) (last now : Int),
      (drainLoop q last now).1.map Prod.fst = q.map QJob.id) ∧
    (∀ (q : List QJob) (last now : Int),
      (∀ j ∈ q, j.succeeds = true ∧ 0 ≤ j.duration) →
      dispatchesSeparated (drainLoop q last now).1 = true) ∧
    (∀ (s : ThrottleState) (now : Int), s.processing = true →
      processQueue s now = ([], s)) := by
  refine ⟨drainLoop_fifo, drainLoop_separated, ?_⟩
  intro s now hp
  simp [processQueue, hp]

/-- C5 witness: two successful jobs, and a re-entrant call. -/
theorem c5_witness :
    ((drainLoop [⟨0, 1000, true⟩, ⟨1, 0, true⟩] 0 0).1.map Prod.fst
       = [QJob.mk 0 1000 true, QJob.mk 1 0 true].map QJob.id) ∧
    dispatchesSeparated (drainLoop [⟨0, 1000, true⟩, ⟨1, 0, true⟩] 0 0).1 = true ∧
    processQueue ⟨[⟨2, 0, true⟩], true, 0⟩ 5 = ([], ⟨[⟨2, 0, true⟩], true, 0⟩) :=
  ⟨c5_fifo_separation_reentrancy.1 [⟨0, 1000, true⟩, ⟨1, 0, true⟩] 0 0,
   c5_fifo_separation_reentrancy.2.1 [⟨0, 1000, true⟩, ⟨1, 0, true⟩] 0 0 (by decide),
   c5_fifo_separation_reentrancy.2.2 ⟨[⟨2, 0, true⟩], true, 0⟩ 5 rfl⟩

/-! ## Shared lemmas about the chat response cache -/

theorem lookup_eq_none_of_keys (k : String) (m : ChatCache)
    (h : ∀ e ∈ m, e.1 ≠ k) : List.lookup k m = none := by
  induction m with
  | nil => rfl
  | cons e rest ih =>
    have hek : e.1 ≠ k := h e (List.mem_cons_self e rest)
    have hne : (k == e.1) = false := by
      simp [beq_iff_eq]
      exact fun hk => hek hk.symm
    cases e with
    | mk a b =>
      simp only [List.lookup]
      rw [hne]
      exact ih (fun e' he' => h e' (List.mem_cons_of_mem _ he'))

theorem mapSet_append (m : ChatCache) (k : String) (e : CacheEntry)
    (h : List.lookup k m = none) : mapSet m k e = m ++ [(k, e)] := by
  simp [mapSet, h]

theorem setCached_small (m : ChatCache) (k : String) (r : ChatReply) (t : Int)
    (h : List.lookup k m = none) (hlen : m.length + 1 ≤ 100) :
    setCachedResponse m k r t = m ++ [(k, { response := r, timestamp := t })] := by
  unfold setCachedResponse
  rw [mapSet_append m k _ h]
  rw [if_neg (by simp; omega)]

theorem deleteKey_cons_self (e : String × CacheEntry) (rest : ChatCache) :
    deleteKey (e :: rest) e.1 = rest := by
  unfold deleteKey
  rw [List.eraseP_cons_of_pos]
  simp

theorem mapSet_length_le (m : ChatCache) (k : String) (e : CacheEntry) :
    (mapSet m k e).length ≤ m.length + 1 := by
  unfold mapSet
  split
  · simp
  · simp

theorem setCached_le (m : ChatCache) (k : String) (r : ChatReply) (t : Int)
    (h : m.length ≤ 100) : (setCachedResponse m k r t).length ≤ 100 := by
  simp only [setCachedResponse]
  have hm' := mapSet_length_le m k { response := r, timestamp := t }
  split
  · rename_i hgt
    cases hms : mapSet m k { response := r, timestamp := t } with
    | nil => simp [hms] at hgt
    | cons e rest =>
      simp only [List.head?_cons]
      rw [deleteKey_cons_self]
      rw [hms] at hm'
      simp at hm'
      omega
  · rename_i hle
    simp at hle
    omega

theorem getCachedResponse_miss (m : ChatCache) (key : String) (now : Int)
    (h : List.lookup key m = none) : (getCachedResponse m key now).1 = none := by
  simp [getCachedResponse, h]

theorem insertAll_fill (ks : List String) : ∀ (m : ChatCache) (r : ChatReply) (t : Int),
    (m.map Prod.fst ++ ks).Nodup → m.length + ks.length ≤ 100 →
    insertAll m ks r t = m ++ ks.map (fun k => (k, (⟨r, t⟩ : CacheEntry))) := by
  induction ks with
  | nil => intro m r t _ _; simp [insertAll]
  | cons k rest ih =>
    intro m r t hnd hlen
    have hdisj := (List.nodup_append.mp hnd).2.2
    have hk : k ∉ m.map Prod.fst := fun hmem => hdisj hmem (List.mem_cons_self k rest)
    have hlk : List.lookup k m = none := by
      refine lookup_eq_none_of_keys k m (fun e he hek => ?_)
      exact hk (hek ▸ List.mem_map_of_mem Prod.fst he)
    have hstep : setCachedResponse m k r t = m ++ [(k, (⟨r, t⟩ : CacheEntry))] :=
      setCached_small m k r t hlk (by simp at hlen; omega)
    have hnd' : ((m ++ [(k, (⟨r, t⟩ : CacheEntry))]).map Prod.fst ++ rest).Nodup := by
      have hmap : (m ++ [(k, (⟨r, t⟩ : CacheEntry))]).map Prod.fst
          = m.map Prod.fst ++ [k] := by simp
      rw [hmap, List.append_assoc, List.singleton_append]
      exact hnd
    have hlen' : (m ++ [(k, (⟨r, t⟩ : CacheEntry))]).length + rest.length ≤ 100 := by
      simp at hlen ⊢; omega
    calc insertAll m (k :: rest) r t
        = insertAll (setCachedResponse m k r t) rest r t := by
          simp [insertAll]
      _ = insertAll (m ++ [(k, (⟨r, t⟩ : CacheEntry))]) rest r t := by rw [hstep]
      _ = (m ++ [(k, (⟨r, t⟩ : CacheEntry))])
            ++ rest.map (fun k => (k, (⟨r, t⟩ : CacheEntry))) := ih _ r t hnd' hlen'
      _ = m ++ (k :: rest).map (fun k => (k, (⟨r, t⟩ : CacheEntry))) := by simp

theorem foldl_setCached_le (ops : List (String × ChatReply × Int)) :
    ∀ m : ChatCache, m.length ≤ 100 →
    (ops.foldl (fun acc o => setCachedResponse acc o.1 o.2.1 o.2.2) m).length ≤ 100 := by
  induction ops with
  | nil => intro m h; simpa using h
  | cons o rest ih =>
    intro m h
    rw [List.foldl_cons]
    exact ih _ (setCached_le m o.1 o.2.1 o.2.2 h)

/-! ## C7 -/

/-- C7: starting from the empty response cache, no sequence of
`setCachedResponse` calls ever leaves more than 100 entries; and after
inserting 101 distinct keys the first-inserted (oldest) key is evicted
and no longer retrievable through `getCachedResponse`. -/
theorem c7_cache_bound_and_eviction :
    (∀ (ops : List (String × ChatReply × Int)),
      (ops.foldl (fun acc o => setCachedResponse acc o.1 o.2.1 o.2.2)
        ([] : ChatCache)).length ≤ 100) ∧
    (∀ (k : String) (rest : List String) (r : ChatReply) (t now : Int),
      (k :: rest).Nodup → rest.length = 100 →
      (getCachedResponse (insertAll [] (k :: rest) r t) k now).1 = none) := by
  constructor
  · intro ops
    exact foldl_setCached_le ops [] (by simp)
  · intro k rest r t now hnd hlen
    obtain rfl | ⟨front, x, hfx⟩ := rest.eq_nil_or_concat
    · simp at hlen
    subst hfx
    rw [List.concat_eq_append] at hnd hlen ⊢
    have hfront : front.length = 99 := by simp at hlen; omega
    -- nodup facts
    have hnd1 := List.nodup_cons.mp hnd
    have hkmem : k ∉ front ++ [x] := hnd1.1
    have hknotfront : k ∉ front := fun hm => hkmem (List.mem_append.mpr (Or.inl hm))
    have hknex : k ≠ x := fun he => hkmem (List.mem_append.mpr (Or.inr (by simp [he])))
    have hxfront : x ∉ front := by
      have := (List.nodup_append.mp hnd1.2).2.2
      exact fun hm => this hm (by simp)
    -- the first 100 inserts fill the cache in order
    have hfill : insertAll ([] : ChatCache) (k :: front) r t
        = (k, (⟨r, t⟩ : CacheEntry)) :: front.map (fun k' => (k', (⟨r, t⟩ : CacheEntry))) := by
      have h100 : ([] : ChatCache).length + (k :: front).length ≤ 100 := by
        simp [hfront]
      have hndkf : (([] : ChatCache).map Prod.fst ++ (k :: front)).Nodup := by
        simp only [List.map_nil, List.nil_append]
        refine List.Nodup.sublist ?_ hnd
        exact List.cons_sublist_cons.mpr (List.sublist_append_left front [x])
      simpa using insertAll_fill (k :: front) [] r t hndkf h100
    -- the 101st insert evicts the head (the oldest key k)
    have hsplit : insertAll ([] : ChatCache) (k :: (front ++ [x])) r t
        = setCachedResponse (insertAll ([] : ChatCache) (k :: front) r t) x r t := by
      simp only [insertAll]
      rw [show k :: (front ++ [x]) = (k :: front) ++ [x] by simp]
      rw [List.foldl_append]
      rfl
    set M := (k, (⟨r, t⟩ : CacheEntry)) :: front.map (fun k' => (k', (⟨r, t⟩ : CacheEntry))) with hM
    have hMlen : M.length = 100 := by simp [hM, hfront]
    have hlkxM : List.lookup x M = none := by
      refine lookup_eq_none_of_keys x M (fun e he hex => ?_)
      rw [hM] at he
      rcases List.mem_cons.mp he with he1 | he2
      · rw [he1] at hex
        simp at hex
        exact hknex hex
      · obtain ⟨k', hk', he'⟩ := List.mem_map.mp he2
        rw [← he'] at hex
        simp at hex
        exact hxfront (hex ▸ hk')
    have hset : setCachedResponse M x r t
        = front.map (fun k' => (k', (⟨r, t⟩ : CacheEntry))) ++ [(x, (⟨r, t⟩ : CacheEntry))] := by
      simp only [setCachedResponse]
      rw [mapSet_append M x _ hlkxM]
      rw [if_pos (by simp [hMlen])]
      rw [hM]
      simp only [List.cons_append, List.head?_cons]
      exact deleteKey_cons_self _ _
    have hfinal : insertAll ([] : ChatCache) (k :: (front ++ [x])) r t
        = front.map (fun k' => (k', (⟨r, t⟩ : CacheEntry))) ++ [(x, (⟨r, t⟩ : CacheEntry))] := by
      rw [hsplit, hfill]
      exact hset
    rw [hfinal]
    refine getCachedResponse_miss _ k now (lookup_eq_none_of_keys k _ (fun e he hek => ?_))
    rcases List.mem_append.mp he with he1 | he2
    · obtain ⟨k', hk', he'⟩ := List.mem_map.mp he1
      rw [← he'] at hek
      simp at hek
      exact hknotfront (hek ▸ hk')
    · simp at he2
      rw [he2] at hek
      simp at hek
      exact hknex hek.symm

set_option maxRecDepth 4000 in
/-- C7 witness: 101 concrete distinct keys; the first key `"a"` is gone. -/
theorem c7_witness :
    ("a" :: (List.range 100).map (fun n => String.mk (List.replicate (n + 2) 'a'))).Nodup ∧
    ((List.range 100).map (fun n => String.mk (List.replicate (n + 2) 'a'))).length = 100 ∧
    (getCachedResponse
      (insertAll []
        ("a" :: (List.range 100).map (fun n => String.mk (List.replicate (n + 2) 'a')))
        { message := "m", suggestions := [], source := "s",
          metadata := { intent := "i", confidence := 0, goldPrice := 0,
                        timestamp := 0, source := "s" },
          shouldOfferPurchase := false, requireLogin := false, suggestedAmount := none }
        0)
      "a" 5).1 = none :=
  ⟨by decide, by decide,
    c7_cache_bound_and_eviction.2 "a"
      ((List.range 100).map (fun n => String.mk (List.replicate (n + 2) 'a')))
      { message := "m", suggestions := [], source := "s",
        metadata := { intent := "i", confidence := 0, goldPrice := 0,
                      timestamp := 0, source := "s" },
        shouldOfferPurchase := false, requireLogin := false, suggestedAmount := none }
      0 5 (by decide) (by decide)⟩

/-! ## Shared lemmas about the legacy compatibility fields -/

theorem strat3Onward_legacy (aiText : String) (intent : Intent) (gp now : Int) :
    ((parseStrat3Onward aiText intent gp now).shouldOfferPurchase = true ↔
      intent.category = "purchase_intent") ∧
    ((parseStrat3Onward aiText intent gp now).requireLogin = true ↔
      intent.category = "portfolio_check") ∧
    (parseStrat3Onward aiText intent gp now).suggestedAmount =
      (if intent.category = "purchase_intent" then some 1000 else none) := by
  unfold parseStrat3Onward
  split
  · simp
  · refine ⟨?_, ?_, ?_⟩
    · rw [apply_ite ChatReply.shouldOfferPurchase]; simp
    · rw [apply_ite ChatReply.requireLogin]; simp
    · rw [apply_ite ChatReply.suggestedAmount]; simp

theorem fallback_legacy (intent : Intent) (gp now : Int) :
    ((getFallbackResponse intent gp now).shouldOfferPurchase = true ↔
      intent.category = "purchase_intent") ∧
    ((getFallbackResponse intent gp now).requireLogin = true ↔
      intent.category = "portfolio_check") ∧
    (getFallbackResponse intent gp now).suggestedAmount =
      (if intent.category = "purchase_intent" then some 1000 else none) := by
  unfold getFallbackResponse
  simp

/-! ## C10 -/

/-- C10: the fixed error reply always carries
`shouldOfferPurchase = true`, `requireLogin = false` and
`suggestedAmount = 500` regardless of intent, while every non-error
reply constructor (fallback table and all parsing strategies) sets
`shouldOfferPurchase` exactly for `purchase_intent`, `requireLogin`
exactly for `portfolio_check`, and `suggestedAmount = 1000` for
`purchase_intent` and `null` otherwise. -/
theorem c10_legacy_fields :
    (∀ now : Int, (getErrorResponse now).shouldOfferPurchase = true ∧
      (getErrorResponse now).requireLogin = false ∧
      (getErrorResponse now).suggestedAmount = some 500) ∧
    (∀ (intent : Intent) (gp now : Int),
      ((getFallbackResponse intent gp now).shouldOfferPurchase = true ↔
        intent.category = "purchase_intent") ∧
      ((getFallbackResponse intent gp now).requireLogin = true ↔
        intent.category = "portfolio_check") ∧
      (getFallbackResponse intent gp now).suggestedAmount =
        (if intent.category = "purchase_intent" then some 1000 else none)) ∧
    (∀ (aiText : String) (intent : Intent) (gp now : Int)
        (jp : String → Except Unit ParsedObj),
      ((parseGeminiResponse aiText intent gp now jp).shouldOfferPurchase = true ↔
        intent.category = "purchase_intent") ∧
      ((parseGeminiResponse aiText intent gp now jp).requireLogin = true ↔
        intent.category = "portfolio_check") ∧
      (parseGeminiResponse aiText intent gp now jp).suggestedAmount =
        (if intent.category = "purchase_intent" then some 1000 else none)) := by
  refine ⟨fun now => ⟨rfl, rfl, rfl⟩, fallback_legacy, ?_⟩
  intro aiText intent gp now jp
  unfold parseGeminiResponse
  split
  · simp
  · split
    · split
      · exact fallback_legacy intent gp now
      · split
        · simp
        · exact strat3Onward_legacy aiText intent gp now
    · exact strat3Onward_legacy aiText intent gp now

/-! ## Shared lemmas about reply messages -/

theorem strMk_data (s : String) : String.mk s.data = s := rfl

theorem strMk_ne_empty (l : List Char) (h : l ≠ []) : String.mk l ≠ "" := by
  intro he
  exact h (by simpa using congrArg String.data he)

theorem dropWhile_concat_of_neg (p : Char → Bool) (xs : List Char) (c : Char)
    (hc : p c = false) : ∃ zs, List.dropWhile p (xs ++ [c]) = zs ++ [c] := by
  induction xs with
  | nil => exact ⟨[], by simp [List.dropWhile, hc]⟩
  | cons x xs ih =>
    by_cases hx : p x = true
    · simpa [List.dropWhile, hx] using ih
    · refine ⟨x :: xs, ?_⟩
      simp [List.dropWhile, hx]

theorem trimChars_concat_ne_nil (xs : List Char) (c : Char) (hc : isWsCh c = false) :
    trimChars (xs ++ [c]) ≠ [] := by
  unfold trimChars
  obtain ⟨zs, hzs⟩ := dropWhile_concat_of_neg isWsCh xs c hc
  rw [hzs]
  simp [List.dropWhile, hc]

theorem strat3Match_some_ne_nil (cs grp : List Char)
    (h : strat3Match cs = some grp) : grp ≠ [] := by
  induction cs with
  | nil => cases h
  | cons c rest ih =>
    simp only [strat3Match] at h
    split at h
    · split at h
      · split at h
        · split at h
          · rename_i hcond
            injection h with h'
            subst h'
            simp only [Bool.and_eq_true, Bool.not_eq_true'] at hcond
            intro hnil
            rw [hnil] at hcond
            simp at hcond
          · exact ih h
        · exact ih h
      · exact ih h
    · exact ih h

theorem fallback_entry_cases (cat : String) :
    (fallbackResponses cat).getD goldGeneralEntry = greetingEntry ∨
    (fallbackResponses cat).getD goldGeneralEntry = goldGeneralEntry ∨
    (fallbackResponses cat).getD goldGeneralEntry = purchaseIntentEntry ∨
    (fallbackResponses cat).getD goldGeneralEntry = portfolioCheckEntry := by
  unfold fallbackResponses
  repeat' split
  all_goals simp

theorem fallback_message_ne_empty (intent : Intent) (gp now : Int) :
    (getFallbackResponse intent gp now).message ≠ "" := by
  unfold getFallbackResponse
  rcases fallback_entry_cases intent.category with h | h | h | h <;>
    rw [h] <;> simp only []
  · have hr : ∀ r : String, jsReplaceFirst greetingEntry.message "Rs XXX" r =
        greetingEntry.message := fun r => rfl
    rw [hr]; decide
  · have hr : ∀ r : String, jsReplaceFirst goldGeneralEntry.message "Rs XXX" r =
        goldGeneralEntry.message := fun r => rfl
    rw [hr]; decide
  · have hr : ∀ r : String, jsReplaceFirst purchaseIntentEntry.message "Rs XXX" r =
        purchaseIntentEntry.message := fun r => rfl
    rw [hr]; decide
  · have hr : ∀ r : String, jsReplaceFirst portfolioCheckEntry.message "Rs XXX" r =
        portfolioCheckEntry.message := fun r => rfl
    rw [hr]; decide

theorem genericPriceMessage_ne_empty (gp : Int) : genericPriceMessage gp ≠ "" := by
  unfold genericPriceMessage
  apply strMk_ne_empty
  simp

theorem optGetD_ne_empty (o : Option String)
    (h : (o.elim false fun m => m ≠ "") = true) : o.getD "" ≠ "" := by
  cases o with
  | none => simp at h
  | some m => simpa using h

theorem parseStrat3Onward_message_ne_empty (aiText : String) (intent : Intent)
    (gp now : Int) (htrim : trimChars aiText.data = aiText.data) (hne : aiText ≠ "") :
    (parseStrat3Onward aiText intent gp now).message ≠ "" := by
  have hjs : jsTrim aiText = aiText := by
    unfold jsTrim; rw [htrim]
  unfold parseStrat3Onward
  split
  · rename_i grp hgrp
    simpa using strMk_ne_empty grp (strat3Match_some_ne_nil aiText.data grp hgrp)
  · rw [apply_ite ChatReply.message]
    split
    · exact strMk_ne_empty _ (trimChars_concat_ne_nil _ '.' (by decide))
    · show (if aiText.data.length < 300 then jsTrim aiText else genericPriceMessage gp) ≠ ""
      split
      · exact fun he => hne (hjs.symm.trans he)
      · exact genericPriceMessage_ne_empty gp

theorem parseGeminiResponse_message_ne_empty (aiText : String) (intent : Intent)
    (gp now : Int) (jp : String → Except Unit ParsedObj)
    (htrim : trimChars aiText.data = aiText.data) (hne : aiText ≠ "") :
    (parseGeminiResponse aiText intent gp now jp).message ≠ "" := by
  have hjs : jsTrim aiText = aiText := by
    unfold jsTrim; rw [htrim]
  unfold parseGeminiResponse
  split
  · show jsTrim aiText ≠ ""
    exact fun he => hne (hjs.symm.trans he)
  · split
    · split
      · exact fallback_message_ne_empty intent gp now
      · split
        · rename_i hguard
          simp only [Bool.and_eq_true] at hguard
          exact optGetD_ne_empty _ (by simpa using hguard.1)
        · exact parseStrat3Onward_message_ne_empty aiText intent gp now htrim hne
    · exact parseStrat3Onward_message_ne_empty aiText intent gp now htrim hne

/-! ## C1 -/

/-- C1 counterexample: a whitespace-only raw model reply (`" "`) is
truthy, trims to the empty string, satisfies the Strategy 1 guard, and
leaves `processMessage` as an empty `message` — an empty message can
leave the orchestrator. -/
theorem c1_counterexample :
    (processMessage
      ⟨"hello", none, some 6850, 10000, 0, some "k", .ok 6850, .ok (some " ")⟩
      (fun _ => .error ()) []).1.message = "" := by
  decide

/-- C1 (amended): whenever the trimmed raw model reply is non-empty (the
shape in which `getGeminiResponse` hands it to `parseGeminiResponse`),
every parsing strategy produces a non-empty message, and the fallback
and error replies always carry fixed non-empty messages; only a reply
whose trimmed text is empty yields an empty message (via Strategy 1),
and JSON-extracted messages are passed through untrimmed. -/
theorem c1_message_nonempty_unless_blank_reply :
    (∀ (raw : String) (intent : Intent) (gp now : Int)
        (jp : String → Except Unit ParsedObj),
      trimChars raw.data = raw.data → raw ≠ "" →
      (parseGeminiResponse raw intent gp now jp).message ≠ "") ∧
    (∀ (intent : Intent) (gp now : Int),
      (getFallbackResponse intent gp now).message ≠ "") ∧
    (∀ now : Int, (getErrorResponse now).message ≠ "") :=
  ⟨fun raw intent gp now jp htrim hne =>
      parseGeminiResponse_message_ne_empty raw intent gp now jp htrim hne,
    fallback_message_ne_empty,
    fun _ => by
      show ("I apologize, but I\x27m having a temporary issue. Let me help you with gold investment opportunities - would you like to know about current gold prices?" : String) ≠ ""
      decide⟩

/-- C1 witness: a concrete already-trimmed clean-text reply. -/
theorem c1_witness :
    trimChars "Gold is a solid choice".data = "Gold is a solid choice".data ∧
    ("Gold is a solid choice" : String) ≠ "" ∧
    (parseGeminiResponse "Gold is a solid choice"
      ⟨"general", 0.5, []⟩ 6850 0 (fun _ => .error ())).message ≠ "" :=
  ⟨by decide, by decide,
    c1_message_nonempty_unless_blank_reply.1 "Gold is a solid choice"
      ⟨"general", 0.5, []⟩ 6850 0 (fun _ => .error ()) (by decide) (by decide)⟩

/-! ## C8 -/

/-- C8: `processMessage` never throws: the `try` body
(`processMessageCore`) can only throw when the cache misses and the gold
price resolution throws (every other internal failure — a failed model
call, an unparsable reply, a `JSON.parse` exception — is absorbed
earlier), and the outer `catch` converts exactly that case into the
fixed `getErrorResponse` reply while every successful core run is
returned unchanged. -/
theorem c8_processMessage_never_throws
    (i : PMInput) (jp : String → Except Unit ParsedObj) (cache : ChatCache) :
    ((processMessageCore i jp cache).1 = .error () ↔
      ((getCachedResponse cache (cacheKeyFor i.message i.userId) i.now).1 = none ∧
        resolveGoldPrice i = .error ())) ∧
    (∀ r : ChatReply, (processMessageCore i jp cache).1 = .ok r →
      (processMessage i jp cache).1 = r) ∧
    ((processMessageCore i jp cache).1 = .error () →
      (processMessage i jp cache).1 = getErrorResponse i.now) := by
  refine ⟨?_, ?_, ?_⟩
  · simp only [processMessageCore]
    split
    · rename_i r heq
      simp [heq]
    · rename_i heq
      split
      · rename_i herr
        simp [heq, herr]
      · rename_i gp hok
        simp [heq, hok]
  · intro r hok
    unfold processMessage
    split
    · rename_i r' c hcore
      rw [hcore] at hok
      exact Except.ok.inj hok
    · rename_i c hcore
      rw [hcore] at hok
      cases hok
  · intro herr
    unfold processMessage
    split
    · rename_i r' c hcore
      rw [hcore] at herr
      cases herr
    · rfl

/-- C8 witness: a cache miss whose price fetch throws is absorbed into
the fixed error reply. -/
theorem c8_witness :
    ((processMessageCore ⟨"help me", none, none, 5000, 0, none, .error (), .error ()⟩
        (fun _ => .error ()) []).1 = .error ()) ∧
    (processMessage ⟨"help me", none, none, 5000, 0, none, .error (), .error ()⟩
        (fun _ => .error ()) []).1 =
      getErrorResponse (⟨"help me", none, none, 5000, 0, none, .error (), .error ()⟩ : PMInput).now :=
  ⟨by rfl,
    (c8_processMessage_never_throws
      ⟨"help me", none, none, 5000, 0, none, .error (), .error ()⟩
      (fun _ => .error ()) []).2.2 (by rfl)⟩
